import Mathlib

/-!
Verification of the npm-check-updates upgrade-resolution core.

Shallow embedding of the three provided sources:
* `src/src/index.ts` — option initialization (`initOptions`), the local run
  (`runLocal`), package-file discovery (`findPackage`) and the main entry
  point (`run`) with its global-timeout race;
* `lib/package-managers/bower.js` — the bower package-manager adapter
  (`list`, `latest`, `greatest`, `newest`);
* the package-manager test file (informational only).

JavaScript `undefined`/`null` option values are modelled with `Option`;
JS truthiness on strings ("" is falsy) is made explicit via `truthyStr`.
Code that throws in non-CLI mode (`programError`) is modelled with
`Except String`.  Functions of the missing `versionmanager` module are
modelled from the spec and say so in their doc comments.
-/

namespace Ncu

/-- JS truthiness for an optional string: `undefined`/`null` and `""` are falsy. -/
def truthyStr : Option String → Bool
  | none => false
  | some s => s ≠ ""

/-- JS `a || b` on optional strings (first operand kept when truthy). -/
def jsOrStr (a b : Option String) : Option String :=
  if truthyStr a then a else b

/-- The recognized program options, translated from the fields of `Options`
that `initOptions` and `run` in `src/src/index.ts` read or write.
`Option` fields model values that may be `undefined` in JS. -/
structure Options where
  target : Option String := none
  greatest : Bool := false
  newest : Bool := false
  semverLevel : Option String := none
  pre : Option Bool := none
  filter : Option String := none
  args : List String := []
  packageFile : Option String := none
  packageData : Option String := none
  deep : Bool := false
  minimal : Option Bool := none
  silent : Bool := false
  loglevel : Option String := none
  upgrade : Option Bool := none
  interactive : Bool := false
  jsonUpgraded : Bool := false
  jsonAll : Bool := false
  jsonDeps : Bool := false
  packageManager : Option String := none
  isGlobal : Bool := false
  ownerChanged : Bool := false
  format : List String := []
  timeout : Option Nat := none
  peer : Bool := false
  json : Bool := false
  deriving Repr, DecidableEq

/-- Translation of `packageFileNames` from `src/src/index.ts` lines 28–31: maps the package
manager to its package file name (undefined for other managers). -/
def packageFileNames (pm : String) : Option String :=
  if pm = "npm" then some "package.json"
  else if pm = "yarn" then some "package.json"
  else none

/-- Translation of `getPackageFileName` from `src/src/index.ts` lines 54–57. -/
def getPackageFileName (o : Options) : String :=
  if truthyStr o.packageFile then o.packageFile.getD ""
  else (packageFileNames (o.packageManager.getD "")).getD "package.json"

/-- Error message of the `--target`/`--greatest` conflict (line 261). -/
def msgTargetGreatest : String :=
  "Cannot specify both --target and --greatest. --greatest is an alias for \"--target greatest\"."

/-- Error message of the `--target`/`--newest` conflict (line 264). -/
def msgTargetNewest : String :=
  "Cannot specify both --target and --newest. --newest is an alias for \"--target newest\"."

/-- Error message of the `--greatest`/`--newest` conflict (line 267). -/
def msgGreatestNewest : String :=
  "Cannot specify both --greatest and --newest. --greatest is an alias for \"--target greatest\" and --newest is an alias for \"--target newest\"."

/-- Error message of the `--filter`/args conflict (line 271). -/
def msgFilterArgs : String :=
  "Cannot specify a filter using both --filter and args. Did you forget to quote an argument?\nSee: https://github.com/raineorshine/npm-check-updates/issues/759#issuecomment-723587297"

/-- Error message of the `--packageFile`/`--deep` conflict (line 274);
`deepPat` stands for `deepPatternPrefix` from the constants module, which is
not among the provided sources and is therefore passed in as a parameter. -/
def msgPackageFileDeep (deepPat : String) : String :=
  "Cannot specify both --packageFile and --deep. --deep is an alias for --packageFile \x27" ++ deepPat ++ "package.json\x27"

/-- The policy-conflict message that the `initOptions` if/else-if chain
produces for a given conflicting options object (first matching branch). -/
def policyConflictMessage (o : Options) : String :=
  if truthyStr o.target && o.greatest then msgTargetGreatest
  else if truthyStr o.target && o.newest then msgTargetNewest
  else msgGreatestNewest

/-- The target computed at `src/src/index.ts` lines 277–279:
`options.newest ? 'newest' : options.greatest ? 'greatest' :
options.target || options.semverLevel || 'latest'`. -/
def initTarget (o : Options) : String :=
  if o.newest then "newest"
  else if o.greatest then "greatest"
  else (jsOrStr o.target (jsOrStr o.semverLevel (some "latest"))).getD "latest"

/-- The consolidated options object returned by `initOptions`
(`src/src/index.ts` lines 295–313) in the non-error case.  `deepPat` stands
for the `deepPatternPrefix` constant and `files` for the result of
`fs.readdirSync(options.cwd || '.')` (the yarn autodetection input), both of
which come from outside this function. -/
def initOk (deepPat : String) (files : List String) (o : Options) : Options :=
  -- shortcut for any keys that start with 'json'
  let json := o.jsonUpgraded || o.jsonAll || o.jsonDeps || o.json
  let target := initTarget o
  -- default to false, except when newest or greatest are set
  let autoPre := target = "newest" || target = "greatest"
  let format := o.format ++ (if o.ownerChanged then ["ownerChanged"] else [])
  let autoYarn := !truthyStr o.packageManager && !o.isGlobal
    && files.contains "yarn.lock" && !files.contains "package-lock.json"
  { o with
    packageFile := if o.deep then some (deepPat ++ getPackageFileName o) else o.packageFile,
    filter := if o.args.length > 0 then some (String.intercalate " " o.args) else o.filter,
    format := if format.length > 0 then format else o.format,
    json := json,
    loglevel := if o.silent then some "silent" else o.loglevel,
    minimal := some (o.minimal.getD false),
    pre := if o.pre.isSome then o.pre else if autoPre then some true else none,
    target := some target,
    upgrade := if o.interactive && o.upgrade.isNone then some (!json) else o.upgrade,
    packageManager := if !truthyStr o.packageManager
      then some (if autoYarn then "yarn" else "npm") else o.packageManager }

/-- Translation of `initOptions` from `src/src/index.ts` lines 251–314, in
non-CLI mode where `programError` throws (modelled as `Except.error`).
Chalk colouring is ignored. -/
def initOptions (deepPat : String) (files : List String) (o : Options) : Except String Options :=
  -- disallow combination of --target, --greatest, or --newest
  if truthyStr o.target && o.greatest then .error msgTargetGreatest
  else if truthyStr o.target && o.newest then .error msgTargetNewest
  else if o.greatest && o.newest then .error msgGreatestNewest
  -- disallow non-matching filter and args
  else if truthyStr o.filter && o.args.length > 0 && o.filter ≠ some (String.intercalate " " o.args) then .error msgFilterArgs
  else if truthyStr o.packageFile && o.deep then .error (msgPackageFileDeep deepPat)
  else .ok (initOk deepPat files o)

/-- A per-name resolution map: each requested name gets its own slot holding
either a resolved value or that name's captured fetch error (per-name failures
are entries, not run-level rejections). -/
def Analysis := List (String × Except String String)

/-- Per-name resolution: every name gets its own slot; a fetch failure is
captured in that slot without aborting the siblings. -/
def resolveNames (fetch : String → Except String String) (names : List String) : Analysis :=
  names.map (fun n => (n, fetch n))

/-- The sequencing of `run` from `src/src/index.ts`: `initOptions` is called
(line 430) before `runUpgrades` is ever started (line 549), so in non-CLI mode
an option-validation error propagates before any fetch happens.  The
per-name resolution work performed by the missing `versionmanager` module is
abstracted as `resolveNames fetch names`. -/
def runModel (deepPat : String) (files : List String) (o : Options)
    (names : List String) (fetch : String → Except String String) : Except String Analysis :=
  match initOptions deepPat files o with
  | .error e => .error e
  | .ok _ => .ok (resolveNames fetch names)

/-- Which of the two racing promises of `Promise.race([timeoutPromise,
runUpgrades()])` (line 549) settles first. -/
inductive RaceOutcome where
  | timedOut
  | completed
  deriving Repr, DecidableEq

/-- The timeout rejection message built at `src/src/index.ts` line 464. -/
def timeoutMessage (timeoutMs : Nat) : String :=
  "Exceeded global timeout of " ++ toString timeoutMs ++ "ms"

/-- The global-timeout race of `run` (`src/src/index.ts` lines 455–472 and
534–550): when a timeout is configured, `timeoutPromise` rejects with the
exceeded-timeout message after `timeoutMs`; `runUpgrades` clears the timer
(line 530) before resolving. Which promise settles first is the explicit
`winner` parameter; the returned `Bool` records whether the timer was
cleared. Without a configured timeout the timeout promise never settles. -/
def runRace (timeout : Option Nat) (winner : RaceOutcome) (work : Except String Analysis) :
    Except String Analysis × Bool :=
  match timeout with
  | none => (work, true)
  | some timeoutMs =>
    match winner with
    | .timedOut => (.error (timeoutMessage timeoutMs), false)
    | .completed => (work, true)

end Ncu

namespace Bower

/-!
Embedding of `lib/package-managers/bower.js`.  Each command is a function of
the outcome of the single underlying `bower.commands.*` invocation (the
`end`/`error` event), so each adapter operation performs exactly one
attempt — there is no retry loop in the source.
-/

/-- The `pkgMeta` of an installed bower dependency (only `version` is read). -/
structure BowerPkgMeta where
  version : String
  deriving Repr, DecidableEq

/-- The `results` object delivered by `bower.commands.info`: the version
tagged latest and the full version list, which bower returns in
highest-to-lowest order (comment at `bower.js` line 73). -/
structure BowerInfo where
  latestVersion : String
  versions : List String
  deriving Repr, DecidableEq

/-- An error object delivered on the `error` event (only `message` is read). -/
structure BowerErr where
  message : String
  deriving Repr, DecidableEq

/-- Translation of `list` (`bower.js` lines 42–52): maps each dependency to its
`pkgMeta.version`; an `error` event rejects with the error unchanged. -/
def list (event : Except BowerErr (List (String × BowerPkgMeta))) :
    Except BowerErr (List (String × String)) :=
  event.map (fun deps => deps.map (fun p => (p.1, p.2.version)))

/-- Non-whitespace, the `\S` character class of the 404 regex. -/
def isNonSpace (c : Char) : Bool := !c.isWhitespace

/-- Does `Package \S* not found` match starting exactly at this position?
`\S*` must be followed by the literal `" not found"`, whose first character
is a space, so backtracking always lands on the maximal non-space run. -/
def matchNotFoundAt (cs : List Char) : Bool :=
  ("Package ".toList).isPrefixOf cs &&
    (" not found".toList).isPrefixOf ((cs.drop 8).dropWhile isNonSpace)

/-- Unanchored search of the pattern over every start position. -/
def testNotFoundAux : List Char → Bool
  | [] => matchNotFoundAt []
  | c :: cs => matchNotFoundAt (c :: cs) || testNotFoundAux cs

/-- Translation of `/Package \S* not found/.test(message)` from `bower.js` line 63. -/
def testNotFound (s : String) : Bool := testNotFoundAux s.toList

/-- Translation of `latest` (`bower.js` lines 54–66): resolves `results.latest.version`;
on error, a message matching the not-found pattern is normalized to the
string `"404 Not Found"` (left summand) while any other error is propagated
unmodified (right summand). -/
def latest (event : Except BowerErr BowerInfo) : Except (String ⊕ BowerErr) String :=
  match event with
  | .ok results => .ok results.latestVersion
  | .error err =>
    .error (if testNotFound err.message then .inl "404 Not Found" else .inr err)

/-- The version pick of `greatest` (`bower.js` line 73):
`results.versions[0]`, relying on bower's highest-to-lowest order
(`undefined`, i.e. `none`, on an empty list). -/
def bowerGreatest {α : Type} (versions : List α) : Option α := versions.head?

/-- Translation of `greatest` (`bower.js` lines 68–77): resolves `results.versions[0]`;
an `error` event rejects with the error unchanged. -/
def greatest (event : Except BowerErr BowerInfo) : Except BowerErr (Option String) :=
  event.map (fun results => bowerGreatest results.versions)

/-- Translation of `newest` (`bower.js` lines 79–81): throws unconditionally. -/
def newest : Except String String :=
  .error "Semantic versioning level \"newest\" is not supported for Bower"

/-- Translation of `greatestMajor` (`bower.js` lines 83–85): throws unconditionally. -/
def greatestMajor : Except String String :=
  .error "Semantic versioning level \"major\" is not supported for Bower"

/-- Translation of `greatestMinor` (`bower.js` lines 87–89): throws unconditionally. -/
def greatestMinor : Except String String :=
  .error "Semantic versioning level \"minor\" is not supported for Bower"

end Bower

namespace Ncu

/-! Semantic-version ordering used to state the `greatest` claims.  The
claims quantify over metadata sets with no prerelease versions, so a version
is a major/minor/patch triple and precedence is lexicographic. -/

/-- A release version (no prerelease component). -/
structure SemVer where
  major : Nat
  minor : Nat
  patch : Nat
  deriving Repr, DecidableEq

/-- Semantic-version precedence (major, then minor, then patch). -/
def semverLe (a b : SemVer) : Bool :=
  if a.major ≠ b.major then decide (a.major < b.major)
  else if a.minor ≠ b.minor then decide (a.minor < b.minor)
  else decide (a.patch ≤ b.patch)

/-- A version list in highest-to-lowest order — the order in which bower
returns `results.versions` (comment at `bower.js` line 73). -/
def sortedDescB : List SemVer → Bool
  | [] => true
  | [_] => true
  | a :: b :: t => semverLe b a && sortedDescB (b :: t)

/-!
Embedding of the result post-processing of `runLocal`
(`src/src/index.ts` lines 170–243).  JS objects mapping names to strings are
modelled as association lists, which keep JS insertion order of keys.
-/

/-- Lookup `object[key]` for a name-indexed JS object. -/
def lookup (m : List (String × String)) (k : String) : Option String :=
  (m.find? (fun p => p.1 == k)).map (fun p => p.2)

/-- Lookup `object[key]` for a name-indexed JS object of booleans. -/
def lookupFlag (m : List (String × Bool)) (k : String) : Option Bool :=
  (m.find? (fun p => p.1 == k)).map (fun p => p.2)

/-- The keys of a name-indexed JS object (`Object.keys`). -/
def keys (m : List (String × String)) : List String := m.map (fun p => p.1)

/-- Modelled from the spec: `vm.isSatisfied(version, range)` of the
`versionmanager` module is not among the provided sources; per the spec,
"satisfied = true iff currentRange already admits candidateVersion".  Range
admission itself is the abstract parameter `admits : range → version → Bool`;
a missing version or range is never satisfied. -/
def isSatisfied (admits : String → String → Bool) (version range : Option String) : Bool :=
  match version, range with
  | some v, some r => admits r v
  | _, _ => false

/-- Modelled from the spec: `vm.upgradePackageData` of the `versionmanager`
module is not among the provided sources; per the spec, its output upgraded
map "contains only names whose rewritten range differs from the declared
range".  `current` maps names to declared ranges and `upgraded` maps names to
rewritten ranges. -/
def selectedNewDependencies (current upgraded : List (String × String)) :
    List (String × String) :=
  upgraded.filter (fun p => lookup current p.1 != some p.2)

/-- The `satisfied` object of `runLocal` (lines 181–184): for each key of
`selectedNewDependencies`, `vm.isSatisfied(latest[dep], current[dep])` —
computed from the raw latest candidate and the declared range only. -/
def satisfiedMap (admits : String → String → Bool)
    (selected latest current : List (String × String)) : List (String × Bool) :=
  (keys selected).map
    (fun dep => (dep, isSatisfied admits (lookup latest dep) (lookup current dep)))

/-- Translation of `filteredUpgraded` of `runLocal` (line 187): in minimal mode, keep only
the unsatisfied entries of `selectedNewDependencies`; otherwise keep all. -/
def filteredUpgraded (admits : String → String → Bool) (minimal : Bool)
    (selected latest current : List (String × String)) : List (String × String) :=
  if minimal then
    selected.filter
      (fun p => !isSatisfied admits (lookup latest p.1) (lookup current p.1))
  else selected

/-- The write decision of `runLocal` (lines 216–231): the new package data is
written to disk only inside `if (numUpgraded > 0)`, then `if (pkgFile)`,
then `if (options.upgrade)`; in every other case `writePromise` stays the
initial resolved promise and no file is touched.  Returns the performed
write, if any, as (path, contents). -/
def runLocalWrite (pkgFile : Option String) (upgrade : Bool) (numUpgraded : Nat)
    (newPkgData : String) : Option (String × String) :=
  if numUpgraded > 0 then
    if truthyStr pkgFile then
      if upgrade then pkgFile.map (fun f => (f, newPkgData)) else none
    else none
  else none

/-- The package-file path selection of `findPackage`
(`src/src/index.ts` lines 360–393): with `--packageData`, `pkgFile` is null;
with `--packageFile`, it is that path; on a non-TTY stdin with non-blank
data, it is null (stdin-only input); otherwise it is the `findUp` search
result.  `stdinData.trim` is modelled by `String.trim`. -/
def findPackageFile (packageData packageFileOpt : Option String) (ttyStdin : Bool)
    (stdinData : String) (findUpResult : Option String) : Option String :=
  if truthyStr packageData then none
  else if truthyStr packageFileOpt then packageFileOpt
  else if !ttyStdin then
    if stdinData.trim.length > 0 then none else findUpResult
  else findUpResult

/-! Helper lemmas. -/

@[simp]
theorem truthyStr_none : truthyStr none = false := rfl

/-- When `initOptions` succeeds, the returned options object is exactly the
consolidated `initOk` record. -/
theorem initOptions_ok_inv {deepPat : String} {files : List String} {o r : Options}
    (h : initOptions deepPat files o = Except.ok r) : r = initOk deepPat files o := by
  unfold initOptions at h
  repeat' split at h
  · cases h
  · cases h
  · cases h
  · cases h
  · cases h
  · injection h with h
    exact h.symm

/-! Theorems for the claims. -/

/-- C1 (counterexample): with no target, greatest, newest, or semverLevel
option, `initOptions` selects the target `"latest"` — the dist-tag policy of
the spec's taxonomy — and not the `semver-range-preserving` mode the claim
names as the default. -/
theorem default_target_latest_cx :
    (initOptions "**/" [] {}).map (fun r => r.target) = Except.ok (some "latest")
    ∧ ("latest" : String) ≠ "semver-range-preserving" :=
  ⟨rfl, by decide⟩

/-- C1 (amended): when the caller specifies no target, greatest, newest, or
semverLevel option (and no unrelated option conflict aborts initialization),
the active target policy for the run is `"latest"`. -/
theorem initOptions_default_target (deepPat : String) (files : List String) (o : Options)
    (h1 : o.target = none) (h2 : o.greatest = false) (h3 : o.newest = false)
    (h4 : o.semverLevel = none)
    (h5 : truthyStr o.filter = false ∨ o.args = [])
    (h6 : truthyStr o.packageFile = false ∨ o.deep = false) :
    (initOptions deepPat files o).map (fun r => r.target) = Except.ok (some "latest") := by
  have hok : initOptions deepPat files o = Except.ok (initOk deepPat files o) := by
    unfold initOptions
    rcases h5 with h5 | h5 <;> rcases h6 with h6 | h6 <;>
      simp [h1, h2, h3, h4, h5, h6]
  rw [hok]
  show Except.ok (initOk deepPat files o).target = _
  simp [initOk, initTarget, h1, h2, h3, h4, jsOrStr]

/-- Witness for C1 (amended), at the empty options object. -/
theorem initOptions_default_target_witness :
    (initOptions "**/" [] {}).map (fun r => r.target) = Except.ok (some "latest") :=
  initOptions_default_target "**/" [] {} rfl rfl rfl rfl (Or.inl rfl) (Or.inl rfl)

/-- C3 (counterexample): with the pre option unset, requesting the greatest
(or newest) target makes `initOptions` enable pre-release inclusion
(`pre := some true`), contradicting exclusion "regardless of target
policy". -/
theorem pre_auto_cx :
    (initOptions "**/" [] { greatest := true }).map (fun r => r.pre) = Except.ok (some true)
    ∧ (initOptions "**/" [] { newest := true }).map (fun r => r.pre) = Except.ok (some true)
    ∧ ({ greatest := true } : Options).pre = none ∧ ({ newest := true } : Options).pre = none :=
  ⟨rfl, rfl, rfl, rfl⟩

/-- C3 (amended): when option initialization succeeds, the consolidated pre
option equals the caller's pre option when that was set, and otherwise
defaults to unset (pre-releases excluded) except when the resolved target is
newest or greatest, in which case it defaults to enabled. -/
theorem initOptions_pre_default (deepPat : String) (files : List String) (o r : Options)
    (hok : initOptions deepPat files o = Except.ok r) :
    r.pre = (if o.pre.isSome then o.pre
      else if r.target = some "newest" ∨ r.target = some "greatest" then some true
      else none) := by
  have hr := initOptions_ok_inv hok
  subst hr
  show (if o.pre.isSome then o.pre
    else if (initTarget o = "newest" || initTarget o = "greatest") = true then some true else none) = _
  by_cases hp : o.pre.isSome <;>
    by_cases hn : initTarget o = "newest" <;>
    by_cases hg : initTarget o = "greatest" <;>
      simp [initOk, hp, hn, hg]

/-- Witness for C3 (amended), at the options object that only sets greatest. -/
theorem initOptions_pre_default_witness :
    (initOk "**/" [] ({ greatest := true } : Options)).pre =
      (if ({ greatest := true } : Options).pre.isSome then ({ greatest := true } : Options).pre
       else if (initOk "**/" [] ({ greatest := true } : Options)).target = some "newest"
            ∨ (initOk "**/" [] ({ greatest := true } : Options)).target = some "greatest" then some true
       else none) :=
  initOptions_pre_default "**/" [] { greatest := true } (initOk "**/" [] { greatest := true }) rfl

/-- C4: requesting two mutually exclusive target policies together makes the
run fail during option initialization with the policy-conflict message of the
first matching check; the result is the same for every fetch function and
name list, so no metadata fetch and no per-name output can have occurred. -/
theorem run_policy_conflict (deepPat : String) (files : List String) (o : Options)
    (names : List String) (fetch : String → Except String String)
    (h : (truthyStr o.target = true ∧ o.greatest = true)
       ∨ (truthyStr o.target = true ∧ o.newest = true)
       ∨ (o.greatest = true ∧ o.newest = true)) :
    runModel deepPat files o names fetch = Except.error (policyConflictMessage o) := by
  unfold runModel initOptions policyConflictMessage
  rcases h with ⟨ha, hb⟩ | ⟨ha, hb⟩ | ⟨ha, hb⟩
  · simp [ha, hb]
  · by_cases hg : o.greatest <;> simp [ha, hb, hg]
  · by_cases ht : truthyStr o.target <;> simp [ha, hb, ht]

/-- Witness for C4, at an options object requesting greatest and newest
together. -/
theorem run_policy_conflict_witness :
    runModel "**/" [] { greatest := true, newest := true } ["lodash"]
      (fun _ => Except.ok "4.17.21") = Except.error msgGreatestNewest := by
  have h := run_policy_conflict "**/" [] { greatest := true, newest := true } ["lodash"]
    (fun _ => Except.ok "4.17.21") (Or.inr (Or.inr ⟨rfl, rfl⟩))
  simpa [policyConflictMessage] using h

/-- Unfolding of the boolean semantic-version comparison into arithmetic. -/
theorem semverLe_iff (a b : SemVer) : semverLe a b = true ↔
    (a.major < b.major ∨ (a.major = b.major ∧
      (a.minor < b.minor ∨ (a.minor = b.minor ∧ a.patch ≤ b.patch)))) := by
  unfold semverLe
  by_cases h1 : a.major = b.major <;> by_cases h2 : a.minor = b.minor <;>
    simp [h1, h2]

/-- Reflexivity of semantic-version precedence. -/
theorem semverLe_refl (a : SemVer) : semverLe a a = true := by
  rw [semverLe_iff]
  omega

/-- Transitivity of semantic-version precedence. -/
theorem semverLe_trans {a b c : SemVer} (h1 : semverLe a b = true)
    (h2 : semverLe b c = true) : semverLe a c = true := by
  rw [semverLe_iff] at *
  omega

/-- The head of a highest-to-lowest sorted version list bounds every
element. -/
theorem sortedDescB_head_max : ∀ (t : List SemVer) (a : SemVer),
    sortedDescB (a :: t) = true → (a :: t).all (fun w => semverLe w a) = true := by
  intro t
  induction t with
  | nil =>
    intro a _
    simp [semverLe_refl]
  | cons b t' ih =>
    intro a hs
    have hs' : semverLe b a = true ∧ sortedDescB (b :: t') = true := by
      simpa [sortedDescB] using hs
    have h3 := ih b hs'.2
    simp only [List.all_cons, List.all_eq_true, Bool.and_eq_true] at h3 ⊢
    refine ⟨semverLe_refl a, hs'.1, ?_⟩
    intro w hw
    exact semverLe_trans (h3.2 w hw) hs'.1

/-- C2 (counterexample): the bower adapter's greatest operation picks the
first list element, so on the permuted (ascending) list it returns a
non-maximal version and its result changes under permutation, refuting
order-independence. -/
theorem bower_greatest_order_dependent :
    Bower.bowerGreatest [SemVer.mk 1 0 0, SemVer.mk 2 0 0]
      ≠ Bower.bowerGreatest [SemVer.mk 2 0 0, SemVer.mk 1 0 0]
    ∧ ([SemVer.mk 1 0 0, SemVer.mk 2 0 0].all (fun w => semverLe w (SemVer.mk 2 0 0)) = true)
    ∧ Bower.bowerGreatest [SemVer.mk 1 0 0, SemVer.mk 2 0 0] ≠ some (SemVer.mk 2 0 0) := by
  refine ⟨?_, ?_, ?_⟩ <;> decide

/-- C2 (amended): for a prerelease-free version list in the
highest-to-lowest order in which bower delivers it, the adapter's greatest
operation (first element) is a maximum by semantic-version precedence. -/
theorem bowerGreatest_sorted_max (l : List SemVer) (v : SemVer)
    (hs : sortedDescB l = true) (hv : Bower.bowerGreatest l = some v) :
    l.all (fun w => semverLe w v) = true := by
  cases l with
  | nil => cases hv
  | cons a t =>
    have hav : a = v := by
      simpa [Bower.bowerGreatest] using hv
    subst hav
    exact sortedDescB_head_max t a hs

/-- Witness for C2 (amended), at a concrete three-element sorted list. -/
theorem bowerGreatest_sorted_max_witness :
    ([SemVer.mk 3 0 0, SemVer.mk 2 1 0, SemVer.mk 1 0 0].all
      (fun w => semverLe w (SemVer.mk 3 0 0)) = true) :=
  bowerGreatest_sorted_max _ _ (by decide) rfl

/-- C7 (counterexample): the bower adapter's newest operation raises the
unsupported-operation error unconditionally (it takes no input at all), so
not every adapter variant implements the full capability interface. -/
theorem bower_newest_unsupported_cx :
    Bower.newest = Except.error "Semantic versioning level \"newest\" is not supported for Bower" :=
  rfl

/-- C7 (amended): the bower adapter implements list, latest, and greatest —
each yields a result on a successful command outcome and propagates the
command's failure otherwise — but its newest operation (and likewise
greatestMajor and greatestMinor) raises an unsupported-operation error
unconditionally. -/
theorem bower_capabilities (deps : List (String × Bower.BowerPkgMeta)) (info : Bower.BowerInfo) :
    Bower.list (Except.ok deps) = Except.ok (deps.map (fun p => (p.1, p.2.version)))
    ∧ Bower.latest (Except.ok info) = Except.ok info.latestVersion
    ∧ Bower.greatest (Except.ok info) = Except.ok (Bower.bowerGreatest info.versions)
    ∧ (∀ e : Bower.BowerErr, ∃ msg, Bower.list (Except.error e) = Except.error msg)
    ∧ Bower.newest = Except.error "Semantic versioning level \"newest\" is not supported for Bower"
    ∧ Bower.greatestMajor = Except.error "Semantic versioning level \"major\" is not supported for Bower"
    ∧ Bower.greatestMinor = Except.error "Semantic versioning level \"minor\" is not supported for Bower" :=
  ⟨rfl, rfl, rfl, fun e => ⟨e, rfl⟩, rfl, rfl, rfl⟩

/-- C8: the bower adapter's latest operation is a function of the single
underlying `bower.commands.info` outcome (one attempt, no retry); an error
whose message matches the not-found pattern is rejected as the normalized
string `"404 Not Found"`, every other error is propagated unmodified, and a
successful outcome resolves to the latest-tagged version.  The two concrete
conjuncts check the pattern itself on a not-found message and on a transient
network message. -/
theorem bower_latest_404 (e : Bower.BowerErr) (r : Bower.BowerInfo) :
    (Bower.latest (Except.error e) = Except.error (Sum.inl "404 Not Found")
      ↔ Bower.testNotFound e.message = true)
    ∧ (Bower.latest (Except.error e) = Except.error (Sum.inr e)
      ↔ Bower.testNotFound e.message = false)
    ∧ Bower.latest (Except.ok r) = Except.ok r.latestVersion
    ∧ Bower.testNotFound "Package jqueryx not found" = true
    ∧ Bower.testNotFound "socket hang up" = false := by
  refine ⟨?_, ?_, rfl, by decide, by decide⟩
  · by_cases h : Bower.testNotFound e.message <;> simp [Bower.latest, h]
  · by_cases h : Bower.testNotFound e.message <;> simp [Bower.latest, h]

end Ncu

namespace Ncu

theorem lookupFlag_mapKeys (f : String → Bool) (l : List String) (dep : String) (h : dep ∈ l) :
    lookupFlag (l.map (fun k => (k, f k))) dep = some (f dep) := by
  induction l with
  | nil => cases h
  | cons a t ih =>
    by_cases ha : a = dep
    · subst ha
      simp [lookupFlag, List.find?]
    · have hd : dep ∈ t := by
        rcases List.mem_cons.mp h with h' | h'
        · exact absurd h'.symm ha
        · exact h'
      have hne : ((a, f a).1 == dep) = false := by
        simpa using ha
      simpa [lookupFlag, List.find?, hne] using ih hd

theorem filteredUpgraded_true (admits : String → String → Bool)
    (s latest current : List (String × String)) :
    filteredUpgraded admits true s latest current
      = s.filter (fun p => !isSatisfied admits (lookup latest p.1) (lookup current p.1)) := rfl

/-- C5 -/
theorem minimal_mode_filter (admits : String → String → Bool)
    (current upgraded latest : List (String × String)) (dep : String) :
    ((dep ∈ keys (filteredUpgraded admits true (selectedNewDependencies current upgraded) latest current)) ↔
      (dep ∈ keys (selectedNewDependencies current upgraded) ∧
        isSatisfied admits (lookup latest dep) (lookup current dep) = false))
    ∧ (filteredUpgraded admits false (selectedNewDependencies current upgraded) latest current
        = selectedNewDependencies current upgraded)
    ∧ ((dep ∈ keys (selectedNewDependencies current upgraded)) ↔
        ∃ r, (dep, r) ∈ upgraded ∧ lookup current dep ≠ some r) := by
  refine ⟨?_, rfl, ?_⟩
  · rw [filteredUpgraded_true]
    constructor
    · intro hmem
      simp only [keys, List.mem_map, List.mem_filter] at hmem
      rcases hmem with ⟨p, ⟨hp, hf⟩, hpd⟩
      subst hpd
      refine ⟨List.mem_map.mpr ⟨p, hp, rfl⟩, ?_⟩
      simpa using hf
    · rintro ⟨hmem, hsat⟩
      rcases List.mem_map.mp hmem with ⟨p, hp, hpd⟩
      subst hpd
      simp only [keys, List.mem_map, List.mem_filter]
      exact ⟨p, ⟨hp, by simp [hsat]⟩, rfl⟩
  · constructor
    · intro hmem
      simp only [keys, selectedNewDependencies, List.mem_map, List.mem_filter] at hmem
      rcases hmem with ⟨⟨p1, p2⟩, ⟨hp, hne⟩, hpd⟩
      subst hpd
      exact ⟨p2, hp, by simpa using hne⟩
    · rintro ⟨r, hr, hne⟩
      simp only [keys, selectedNewDependencies, List.mem_map, List.mem_filter]
      exact ⟨(dep, r), ⟨hr, by simpa using hne⟩, rfl⟩

/-- C9 -/
theorem satisfied_iff_admits (admits : String → String → Bool)
    (selectedA selectedB latest current : List (String × String)) (dep v r : String)
    (hdep : dep ∈ keys selectedA) (hkeys : keys selectedA = keys selectedB)
    (hv : lookup latest dep = some v) (hr : lookup current dep = some r) :
    lookupFlag (satisfiedMap admits selectedA latest current) dep = some (admits r v)
    ∧ satisfiedMap admits selectedA latest current
      = satisfiedMap admits selectedB latest current := by
  constructor
  · have h := lookupFlag_mapKeys
      (fun k => isSatisfied admits (lookup latest k) (lookup current k)) (keys selectedA) dep hdep
    simp only at h
    rw [hv, hr] at h
    exact h
  · show (keys selectedA).map _ = (keys selectedB).map _
    rw [hkeys]

theorem satisfied_iff_admits_witness :
    lookupFlag (satisfiedMap (fun x y => x != y)
        [("lodash", "^4.17.21")] [("lodash", "4.17.21")] [("lodash", "^3.0.0")]) "lodash"
      = some (("^3.0.0" : String) != "4.17.21")
    ∧ satisfiedMap (fun x y => x != y)
        [("lodash", "^4.17.21")] [("lodash", "4.17.21")] [("lodash", "^3.0.0")]
      = satisfiedMap (fun x y => x != y)
        [("lodash", "other")] [("lodash", "4.17.21")] [("lodash", "^3.0.0")] :=
  satisfied_iff_admits (fun x y => x != y) [("lodash", "^4.17.21")] [("lodash", "other")]
    [("lodash", "4.17.21")] [("lodash", "^3.0.0")] "lodash" "4.17.21" "^3.0.0"
    (by decide) rfl rfl rfl

theorem runLocalWrite_isSome (pkgFile : Option String) (upgrade : Bool) (n : Nat) (d : String) :
    (runLocalWrite pkgFile upgrade n d).isSome
      = (truthyStr pkgFile && upgrade && decide (0 < n)) := by
  unfold runLocalWrite
  cases pkgFile with
  | none => by_cases h1 : 0 < n <;> simp [h1, truthyStr]
  | some f =>
    by_cases h1 : 0 < n <;> by_cases h3 : upgrade <;> by_cases h4 : f = "" <;>
      simp [h1, h3, h4, truthyStr]

/-- C10 -/
theorem runLocal_write_frame (admits : String → String → Bool) (minimal : Bool)
    (selected latest current : List (String × String))
    (pkgFile packageData packageFileOpt findUpResult : Option String)
    (upgrade ttyStdin : Bool) (stdinData newPkgData : String) :
    ((runLocalWrite pkgFile upgrade
        (filteredUpgraded admits minimal selected latest current).length newPkgData).isSome
      ↔ (truthyStr pkgFile = true ∧ upgrade = true
          ∧ 0 < (filteredUpgraded admits minimal selected latest current).length))
    ∧ (findPackageFile packageData packageFileOpt ttyStdin stdinData findUpResult = none
      ↔ (truthyStr packageData = true
        ∨ (truthyStr packageData = false ∧ truthyStr packageFileOpt = false
            ∧ ttyStdin = false ∧ 0 < stdinData.trim.length)
        ∨ (truthyStr packageData = false ∧ truthyStr packageFileOpt = false
            ∧ ttyStdin = false ∧ stdinData.trim.length = 0 ∧ findUpResult = none)
        ∨ (truthyStr packageData = false ∧ truthyStr packageFileOpt = false
            ∧ ttyStdin = true ∧ findUpResult = none))) := by
  constructor
  · rw [runLocalWrite_isSome]
    simp [and_assoc]
  · unfold findPackageFile
    by_cases h1 : truthyStr packageData <;> by_cases h2 : truthyStr packageFileOpt <;>
      by_cases h3 : ttyStdin <;> by_cases h4 : 0 < stdinData.trim.length <;>
      by_cases h5 : findUpResult = none <;>
        simp [h1, h2, h3, h4, h5]
    all_goals first
      | omega
      | (intro hn
         subst hn
         simp [truthyStr] at h2)

/-- C6: with a global timeout configured, if the timeout promise settles
first the whole run rejects with the single exceeded-timeout message (and the
timer was never cleared); that rejection is a run-level error, distinct from
an analysis whose per-name slots hold fetch errors, which — like any
completed resolution — is returned normally with the timer cancelled.
Without a configured timeout the work result is always returned. -/
theorem global_timeout_race (timeoutMs : Nat) (work : Except String Analysis)
    (entries : Analysis) :
    runRace (some timeoutMs) RaceOutcome.timedOut work
      = (Except.error (timeoutMessage timeoutMs), false)
    ∧ runRace (some timeoutMs) RaceOutcome.completed work = (work, true)
    ∧ runRace (some timeoutMs) RaceOutcome.completed (Except.ok entries)
      = (Except.ok entries, true)
    ∧ runRace none RaceOutcome.completed work = (work, true)
    ∧ timeoutMessage timeoutMs = "Exceeded global timeout of " ++ toString timeoutMs ++ "ms"
    ∧ (Except.error (timeoutMessage timeoutMs) : Except String Analysis) ≠ Except.ok entries :=
  ⟨rfl, rfl, rfl, rfl, rfl, fun h => Except.noConfusion h⟩

end Ncu
